import Mathlib

/-!
Verification of the conversion core in `printing/converter.py`.

The embedding models:
- converter class declarations (`ImageConverter`, `DocConverter`, `PDFConverter`)
  as records carrying their capability declarations;
- the registry `CONVERTERS`, parametrised by the availability probe
  (in the source, `is_available()` is evaluated against the host environment);
- `get_converter_chain`, the pipeline resolver.  The source's traversal uses a
  `deque` with `append` (right push) and `pop` (right pop), i.e. a LIFO stack;
  here the stack is a `List` pushed and popped at the head, which has the same
  LIFO semantics.  The `reverse` dict is an association list in insertion
  order, keys unique by construction.  The loops are given explicit fuel:
  each traversal step pops one queue element, an element is pushed only when a
  new key enters `reverse`, and `reverse` holds at most one key per converter,
  so `converters.length + 1` pops suffice; reconstruction walks `reverse`
  backwards, visiting each key at most once, so `reverse.length + 1` steps
  suffice.  The fuel-exhausted branches are therefore never reached;
- `auto_convert`, with content-type detection and converter execution
  abstracted as function parameters (`detect`, `runConv`), and the executed
  stages returned alongside the result so that "zero converters invoked" is
  expressible.
-/

/-- A converter class: its capability declarations.  `name` distinguishes the
Python classes.  The extension list is informational only (unused by
resolution), as in the source. -/
structure ConvClass where
  name : String
  supported_types : List String
  supported_exts : List String
  output_type : String
deriving DecidableEq

def ImageConverter : ConvClass :=
  { name := "ImageConverter"
  , supported_types := ["image/png", "image/jpeg"]
  , supported_exts := ["png", "jpg", "jpeg"]
  , output_type := "application/pdf" }

def PDFConverter : ConvClass :=
  { name := "PDFConverter"
  , supported_types := ["application/pdf"]
  , supported_exts := ["pdf"]
  , output_type := "gutenberg/pdf" }

def DocConverter : ConvClass :=
  { name := "DocConverter"
  , supported_types := ["application/msword",
      "application/vnd.openxmlformats-officedocument.wordprocessing",
      "application/rtf", "application/vnd.oasis.opendocument.text"]
  , supported_exts := ["doc", "docx", "rtf", "odt"]
  , output_type := "application/pdf" }

/-- `CONVERTERS_ALL = [ImageConverter, DocConverter, PDFConverter]` -/
def CONVERTERS_ALL : List ConvClass := [ImageConverter, DocConverter, PDFConverter]

/-- `CONVERTERS = [conv for conv in CONVERTERS_ALL if conv.is_available()]`.
The availability probe is a parameter: it depends on which external binaries
exist on the host. -/
def CONVERTERS (avail : ConvClass → Bool) : List ConvClass :=
  CONVERTERS_ALL.filter avail

/-- `SUPPORTED_FILE_FORMATS` (informational aggregate). -/
def SUPPORTED_FILE_FORMATS (avail : ConvClass → Bool) : List String :=
  ((CONVERTERS avail).map (·.supported_types)).flatten

/-- `SUPPORTED_EXTENSIONS` (informational aggregate). -/
def SUPPORTED_EXTENSIONS (avail : ConvClass → Bool) : List String :=
  ((CONVERTERS avail).map (·.supported_exts)).flatten

/-- `NoConverterAvailableError`, carrying the data interpolated into its
message: `"Unable to convert {input_type} to {output_types} - no converter
available"`. -/
inductive ConvError where
  | noConverterAvailableError (inputType : String) (outputTypes : List String)
deriving DecidableEq

/-- `converters_for_type`: the defaultdict built by appending each converter,
in registry order, under each of its supported types.  Equivalently, the
registry filtered to the converters accepting `t`. -/
def convertersForType (converters : List ConvClass) (t : String) : List ConvClass :=
  converters.filter (fun c => c.supported_types.contains t)

/-- The inner `for conv in converters_for_type[v]` loop of `bfs`: record the
edge for each newly reached output type, push it, and return early (`Bool` =
`true`) as soon as an acceptable type is seen. -/
def scanConvs (outputTypes : List String) (v : String) :
    List ConvClass → List (String × String × ConvClass) → List String →
    List (String × String × ConvClass) × List String × Bool
  | [], rev, queue => (rev, queue, false)
  | conv :: rest, rev, queue =>
    let u := conv.output_type
    let p := if (rev.lookup u).isNone
             then (rev ++ [(u, v, conv)], u :: queue)
             else (rev, queue)
    if outputTypes.contains u then (p.1, p.2, true)
    else scanConvs outputTypes v rest p.1 p.2

/-- The `while len(queue) > 0` loop of `bfs`, with fuel (see module comment).
Returns the final `reverse` map. -/
def bfsAux (converters : List ConvClass) (outputTypes : List String) :
    Nat → List String → List (String × String × ConvClass) →
    List (String × String × ConvClass)
  | 0, _, rev => rev
  | _ + 1, [], rev => rev
  | fuel + 1, v :: queue, rev =>
    match scanConvs outputTypes v (convertersForType converters v) rev queue with
    | (rev', _, true) => rev'
    | (rev', queue', false) => bfsAux converters outputTypes fuel queue' rev'

/-- The `while v != input_type` reconstruction loop, with fuel (see module
comment).  The `none` branch mirrors a `KeyError`, unreachable because every
recorded predecessor is either `input_type` or itself a recorded key. -/
def buildPipelineAux (rev : List (String × String × ConvClass)) (inputType : String) :
    Nat → String → List ConvClass → List ConvClass
  | 0, _, acc => acc
  | fuel + 1, v, acc =>
    if v = inputType then acc
    else
      match rev.lookup v with
      | some (w, conv) => buildPipelineAux rev inputType fuel w (conv :: acc)
      | none => acc

/-- `get_converter_chain(input_type, output_types)`.  `intersect` keeps the
keys of `reverse` (insertion order) that are acceptable; the source draws
`next(iter(intersect))` from a Python set, an arbitrary element — here the
first, which is the only one whenever `intersect` is non-empty, because the
traversal returns as soon as the first acceptable type is recorded. -/
def getConverterChain (converters : List ConvClass) (inputType : String)
    (outputTypes : List String) : Except ConvError (List ConvClass) :=
  let rev := bfsAux converters outputTypes (converters.length + 1) [inputType] []
  let intersect := (rev.map (·.1)).filter (fun t => outputTypes.contains t)
  match intersect with
  | [] => .error (.noConverterAvailableError inputType outputTypes)
  | v :: _ => .ok (buildPipelineAux rev inputType (rev.length + 1) v [])

/-- `auto_convert`'s `out_types: Union[str, List[str]]` argument. -/
inductive OutTypes where
  | single (s : String)
  | many (l : List String)

/-- `auto_convert(input_file, out_types, work_dir)`, instrumented: also returns
the list of converter stages actually executed, in execution order.  `detect`
abstracts `magic.Magic(mime=True).from_file`; `runConv c work_dir file`
abstracts `c(work_dir).convert(file)`.  NOTE: the short-circuit branch returns
`input_type` — the detected content-type string — exactly as the source's
line `return input_type` does (the spec asks for the input file's path). -/
def autoConvertRun (converters : List ConvClass) (detect : String → String)
    (runConv : ConvClass → String → String → String)
    (inputFile : String) (outTypes : OutTypes) (workDir : String) :
    List ConvClass × Except ConvError String :=
  let outList := match outTypes with | .single s => [s] | .many l => l
  let inputType := detect inputFile
  if outList.contains inputType then ([], .ok inputType)
  else
    match getConverterChain converters inputType outList with
    | .error e => ([], .error e)
    | .ok pipeline =>
      (pipeline, .ok (pipeline.foldl (fun file conv => runConv conv workDir file) inputFile))

/-- `auto_convert`'s return value proper. -/
def autoConvert (converters : List ConvClass) (detect : String → String)
    (runConv : ConvClass → String → String → String)
    (inputFile : String) (outTypes : OutTypes) (workDir : String) :
    Except ConvError String :=
  (autoConvertRun converters detect runConv inputFile outTypes workDir).2

/-- Validity of a chain of converters, following the spec's Pipeline data
model: the empty chain is valid iff the start type is already acceptable; a
non-empty chain `c :: rest` is valid from `t` iff `c` is in the registry,
accepts `t`, and `rest` is valid from `c.output_type` (so the last stage's
output type is acceptable). -/
def chainOk (converters : List ConvClass) (outputTypes : List String) :
    String → List ConvClass → Bool
  | t, [] => outputTypes.contains t
  | t, c :: rest =>
    converters.contains c && c.supported_types.contains t &&
      chainOk converters outputTypes c.output_type rest

-- sanity checks of the embedding on concrete inputs
example :
    getConverterChain (CONVERTERS (fun _ => true)) "image/jpeg" ["application/pdf"] =
      .ok [ImageConverter] := rfl

example :
    getConverterChain (CONVERTERS (fun _ => true)) "image/jpeg" ["gutenberg/pdf"] =
      .ok [ImageConverter, PDFConverter] := rfl

example :
    getConverterChain (CONVERTERS (fun _ => true)) "text/unknown" ["application/pdf"] =
      .error (.noConverterAvailableError "text/unknown" ["application/pdf"]) := rfl

example :
    getConverterChain (CONVERTERS (fun _ => true)) "application/pdf" ["application/pdf"] =
      .error (.noConverterAvailableError "application/pdf" ["application/pdf"]) := rfl

example :
    getConverterChain (CONVERTERS (fun _ => true)) "application/pdf"
      ["application/pdf", "gutenberg/pdf"] = .ok [PDFConverter] := rfl

example :
    getConverterChain (CONVERTERS (fun c => !(c == ImageConverter))) "image/jpeg"
      ["application/pdf"] =
      .error (.noConverterAvailableError "image/jpeg" ["application/pdf"]) := rfl

example :
    autoConvertRun (CONVERTERS (fun _ => true)) (fun _ => "application/pdf")
      (fun _ _ f => f) "in.pdf" (.many ["application/pdf"]) "/work" =
      ([], .ok "application/pdf") := rfl

/-! ### Chain characterisation

With the three converter classes of the source, the supported-type sets are
pairwise disjoint, so from any content-type at most one converter applies and
every valid chain is forced.  The lemmas below characterise all valid chains
starting from each category of type. -/

lemma bfsAux_nil_queue (converters : List ConvClass) (S : List String)
    (n : Nat) (rev : List (String × String × ConvClass)) :
    bfsAux converters S n [] rev = rev := by
  cases n <;> rfl

lemma chainOk_nil (converters : List ConvClass) (S : List String) (t : String) :
    chainOk converters S t [] = S.contains t := rfl

lemma chainOk_cons_iff (avail : ConvClass → Bool) (S : List String) (t : String)
    (c : ConvClass) (rest : List ConvClass) :
    chainOk (CONVERTERS avail) S t (c :: rest) = true ↔
      (c ∈ CONVERTERS_ALL ∧ avail c = true) ∧ t ∈ c.supported_types ∧
        chainOk (CONVERTERS avail) S c.output_type rest = true := by
  simp only [chainOk, CONVERTERS, List.contains, List.elem_iff, List.mem_filter,
    Bool.and_eq_true]
  tauto

lemma chain_from_gut (avail : ConvClass → Bool) (S : List String)
    (q : List ConvClass) (h : chainOk (CONVERTERS avail) S "gutenberg/pdf" q = true) :
    q = [] ∧ "gutenberg/pdf" ∈ S := by
  cases q with
  | nil =>
    refine ⟨rfl, ?_⟩
    simpa [chainOk_nil, List.contains, List.elem_iff] using h
  | cons c rest =>
    exfalso
    rcases (chainOk_cons_iff avail S _ c rest).mp h with ⟨⟨hcAll, _⟩, hacc, _⟩
    simp [CONVERTERS_ALL] at hcAll
    rcases hcAll with rfl | rfl | rfl <;> exact absurd hacc (by decide)

lemma chain_from_app (avail : ConvClass → Bool) (S : List String)
    (q : List ConvClass) (h : chainOk (CONVERTERS avail) S "application/pdf" q = true) :
    (q = [] ∧ "application/pdf" ∈ S) ∨
      (q = [PDFConverter] ∧ avail PDFConverter = true ∧ "gutenberg/pdf" ∈ S) := by
  cases q with
  | nil =>
    left
    refine ⟨rfl, ?_⟩
    simpa [chainOk_nil, List.contains, List.elem_iff] using h
  | cons c rest =>
    right
    rcases (chainOk_cons_iff avail S _ c rest).mp h with ⟨⟨hcAll, hav⟩, hacc, hrest⟩
    simp [CONVERTERS_ALL] at hcAll
    rcases hcAll with rfl | rfl | rfl
    · exact absurd hacc (by decide)
    · exact absurd hacc (by decide)
    · have hout : PDFConverter.output_type = "gutenberg/pdf" := rfl
      rw [hout] at hrest
      rcases chain_from_gut avail S rest hrest with ⟨rfl, hG⟩
      exact ⟨rfl, hav, hG⟩

lemma chain_from_img (avail : ConvClass → Bool) (S : List String) (T : String)
    (hT : T = "image/png" ∨ T = "image/jpeg") (q : List ConvClass)
    (h : chainOk (CONVERTERS avail) S T q = true) :
    (q = [] ∧ T ∈ S) ∨
      (q = [ImageConverter] ∧ avail ImageConverter = true ∧ "application/pdf" ∈ S) ∨
      (q = [ImageConverter, PDFConverter] ∧ avail ImageConverter = true ∧
        avail PDFConverter = true ∧ "gutenberg/pdf" ∈ S) := by
  cases q with
  | nil =>
    left
    refine ⟨rfl, ?_⟩
    simpa [chainOk_nil, List.contains, List.elem_iff] using h
  | cons c rest =>
    right
    rcases (chainOk_cons_iff avail S _ c rest).mp h with ⟨⟨hcAll, hav⟩, hacc, hrest⟩
    simp [CONVERTERS_ALL] at hcAll
    rcases hcAll with rfl | rfl | rfl
    · have hout : ImageConverter.output_type = "application/pdf" := rfl
      rw [hout] at hrest
      rcases chain_from_app avail S rest hrest with ⟨rfl, hA⟩ | ⟨rfl, hP, hG⟩
      · exact Or.inl ⟨rfl, hav, hA⟩
      · exact Or.inr ⟨rfl, hav, hP, hG⟩
    · rcases hT with rfl | rfl <;> exact absurd hacc (by decide)
    · rcases hT with rfl | rfl <;> exact absurd hacc (by decide)

lemma chain_from_doc (avail : ConvClass → Bool) (S : List String) (T : String)
    (hT : T ∈ DocConverter.supported_types) (q : List ConvClass)
    (h : chainOk (CONVERTERS avail) S T q = true) :
    (q = [] ∧ T ∈ S) ∨
      (q = [DocConverter] ∧ avail DocConverter = true ∧ "application/pdf" ∈ S) ∨
      (q = [DocConverter, PDFConverter] ∧ avail DocConverter = true ∧
        avail PDFConverter = true ∧ "gutenberg/pdf" ∈ S) := by
  cases q with
  | nil =>
    left
    refine ⟨rfl, ?_⟩
    simpa [chainOk_nil, List.contains, List.elem_iff] using h
  | cons c rest =>
    right
    rcases (chainOk_cons_iff avail S _ c rest).mp h with ⟨⟨hcAll, hav⟩, hacc, hrest⟩
    simp [CONVERTERS_ALL] at hcAll
    simp [DocConverter] at hT
    rcases hcAll with rfl | rfl | rfl
    · rcases hT with rfl | rfl | rfl | rfl <;> exact absurd hacc (by decide)
    · have hout : DocConverter.output_type = "application/pdf" := rfl
      rw [hout] at hrest
      rcases chain_from_app avail S rest hrest with ⟨rfl, hA⟩ | ⟨rfl, hP, hG⟩
      · exact Or.inl ⟨rfl, hav, hA⟩
      · exact Or.inr ⟨rfl, hav, hP, hG⟩
    · rcases hT with rfl | rfl | rfl | rfl <;> exact absurd hacc (by decide)

lemma chain_from_none (avail : ConvClass → Bool) (S : List String) (T : String)
    (hT : ∀ c ∈ CONVERTERS_ALL, T ∉ c.supported_types) (q : List ConvClass)
    (h : chainOk (CONVERTERS avail) S T q = true) :
    q = [] ∧ T ∈ S := by
  cases q with
  | nil =>
    refine ⟨rfl, ?_⟩
    simpa [chainOk_nil, List.contains, List.elem_iff] using h
  | cons c rest =>
    exfalso
    rcases (chainOk_cons_iff avail S _ c rest).mp h with ⟨⟨hcAll, _⟩, hacc, _⟩
    exact hT c hcAll hacc

lemma chainOk_last (converters : List ConvClass) (S : List String) :
    ∀ (q : List ConvClass) (t : String), chainOk converters S t q = true →
      ∀ hne : q ≠ [], (q.getLast hne).output_type ∈ S
  | [], _, _, hne => absurd rfl hne
  | [c], t, h, _ => by
    simp only [chainOk, Bool.and_eq_true, chainOk_nil] at h
    simpa [List.elem_iff, List.contains] using h.2
  | c :: c' :: rest, t, h, _ => by
    have h' : (converters.contains c && c.supported_types.contains t &&
        chainOk converters S c.output_type (c' :: rest)) = true := h
    rw [Bool.and_eq_true] at h'
    have := chainOk_last converters S (c' :: rest) c.output_type h'.2 (by simp)
    simpa [List.getLast] using this

lemma chainOk_mem (converters : List ConvClass) (S : List String) :
    ∀ (q : List ConvClass) (t : String), chainOk converters S t q = true →
      ∀ c ∈ q, c ∈ converters
  | [], _, _ => by intro c hc; cases hc
  | c :: rest, t, h => by
    have h' : (converters.contains c && c.supported_types.contains t &&
        chainOk converters S c.output_type rest) = true := h
    rw [Bool.and_eq_true, Bool.and_eq_true] at h'
    intro d hd
    rcases List.mem_cons.mp hd with rfl | hd
    · simpa [List.contains, List.elem_iff] using h'.1.1
    · exact chainOk_mem converters S rest c.output_type h'.2 d hd

/-! ### Resolver computation lemmas

`getConverterChain` evaluated in every reachable configuration: the registry
is any availability-filtered sublist of `CONVERTERS_ALL`, the input type is
one of the declared input types (or accepted by nobody), and the accepted set
enters only through membership of the two producible output types. -/

lemma getChain_no_edges (converters : List ConvClass) (T : String) (S : List String)
    (h : convertersForType converters T = []) :
    getConverterChain converters T S = .error (.noConverterAvailableError T S) := by
  simp [getConverterChain, bfsAux, h, scanConvs, bfsAux_nil_queue]

lemma convertersForType_nil (avail : ConvClass → Bool) (T : String)
    (hT : ∀ c ∈ CONVERTERS_ALL, T ∉ c.supported_types) :
    convertersForType (CONVERTERS avail) T = [] := by
  simp only [convertersForType, List.filter_eq_nil_iff]
  intro c hc
  have hAll : c ∈ CONVERTERS_ALL := List.mem_of_mem_filter hc
  simpa [List.contains, List.elem_iff] using hT c hAll

lemma img_types : ImageConverter.supported_types = ["image/png", "image/jpeg"] := rfl

lemma img_out : ImageConverter.output_type = "application/pdf" := rfl

lemma doc_types : DocConverter.supported_types =
    ["application/msword",
      "application/vnd.openxmlformats-officedocument.wordprocessing",
      "application/rtf", "application/vnd.oasis.opendocument.text"] := rfl

lemma doc_out : DocConverter.output_type = "application/pdf" := rfl

lemma pdf_types : PDFConverter.supported_types = ["application/pdf"] := rfl

lemma pdf_out : PDFConverter.output_type = "gutenberg/pdf" := rfl

lemma getChain_img_found (avail : ConvClass → Bool) (T : String) (S : List String)
    (hI : avail ImageConverter = true)
    (hT : T = "image/png" ∨ T = "image/jpeg")
    (hA : "application/pdf" ∈ S) :
    getConverterChain (CONVERTERS avail) T S = .ok [ImageConverter] := by
  rcases hT with rfl | rfl <;>
    cases hD : avail DocConverter <;> cases hP : avail PDFConverter <;>
      simp [getConverterChain, CONVERTERS, CONVERTERS_ALL, hI, hD, hP,
        bfsAux, scanConvs, convertersForType, buildPipelineAux, List.lookup, hA,
        img_types, img_out, doc_types, doc_out, pdf_types, pdf_out]

lemma getChain_img_two (avail : ConvClass → Bool) (T : String) (S : List String)
    (hI : avail ImageConverter = true) (hP : avail PDFConverter = true)
    (hT : T = "image/png" ∨ T = "image/jpeg")
    (hA : "application/pdf" ∉ S) (hG : "gutenberg/pdf" ∈ S) :
    getConverterChain (CONVERTERS avail) T S = .ok [ImageConverter, PDFConverter] := by
  rcases hT with rfl | rfl <;>
    cases hD : avail DocConverter <;>
      simp [getConverterChain, CONVERTERS, CONVERTERS_ALL, hI, hD, hP,
        bfsAux, scanConvs, convertersForType, buildPipelineAux, List.lookup, hA, hG,
        img_types, img_out, doc_types, doc_out, pdf_types, pdf_out]

lemma getChain_img_dead (avail : ConvClass → Bool) (T : String) (S : List String)
    (hI : avail ImageConverter = true) (hP : avail PDFConverter = true)
    (hT : T = "image/png" ∨ T = "image/jpeg")
    (hA : "application/pdf" ∉ S) (hG : "gutenberg/pdf" ∉ S) :
    getConverterChain (CONVERTERS avail) T S = .error (.noConverterAvailableError T S) := by
  rcases hT with rfl | rfl <;>
    cases hD : avail DocConverter <;>
      simp [getConverterChain, CONVERTERS, CONVERTERS_ALL, hI, hD, hP,
        bfsAux, scanConvs, convertersForType, buildPipelineAux, List.lookup, hA, hG,
        img_types, img_out, doc_types, doc_out, pdf_types, pdf_out]

lemma getChain_img_noPdf (avail : ConvClass → Bool) (T : String) (S : List String)
    (hI : avail ImageConverter = true) (hP : avail PDFConverter = false)
    (hT : T = "image/png" ∨ T = "image/jpeg")
    (hA : "application/pdf" ∉ S) :
    getConverterChain (CONVERTERS avail) T S = .error (.noConverterAvailableError T S) := by
  rcases hT with rfl | rfl <;>
    cases hD : avail DocConverter <;>
      simp [getConverterChain, CONVERTERS, CONVERTERS_ALL, hI, hD, hP,
        bfsAux, scanConvs, convertersForType, buildPipelineAux, List.lookup, hA,
        img_types, img_out, doc_types, doc_out, pdf_types, pdf_out]

lemma convertersForType_img_unavail (avail : ConvClass → Bool) (T : String)
    (hI : avail ImageConverter = false) (hT : T = "image/png" ∨ T = "image/jpeg") :
    convertersForType (CONVERTERS avail) T = [] := by
  rcases hT with rfl | rfl <;>
    cases hD : avail DocConverter <;> cases hP : avail PDFConverter <;>
      simp [convertersForType, CONVERTERS, CONVERTERS_ALL, hI, hD, hP,
        img_types, doc_types, pdf_types]

lemma getChain_doc_found (avail : ConvClass → Bool) (T : String) (S : List String)
    (hDoc : avail DocConverter = true)
    (hT : T ∈ DocConverter.supported_types)
    (hA : "application/pdf" ∈ S) :
    getConverterChain (CONVERTERS avail) T S = .ok [DocConverter] := by
  simp only [doc_types, List.mem_cons, List.not_mem_nil, or_false] at hT
  rcases hT with rfl | rfl | rfl | rfl <;>
    cases hI : avail ImageConverter <;> cases hP : avail PDFConverter <;>
      simp [getConverterChain, CONVERTERS, CONVERTERS_ALL, hI, hDoc, hP,
        bfsAux, scanConvs, convertersForType, buildPipelineAux, List.lookup, hA,
        img_types, img_out, doc_types, doc_out, pdf_types, pdf_out]

lemma getChain_doc_two (avail : ConvClass → Bool) (T : String) (S : List String)
    (hDoc : avail DocConverter = true) (hP : avail PDFConverter = true)
    (hT : T ∈ DocConverter.supported_types)
    (hA : "application/pdf" ∉ S) (hG : "gutenberg/pdf" ∈ S) :
    getConverterChain (CONVERTERS avail) T S = .ok [DocConverter, PDFConverter] := by
  simp only [doc_types, List.mem_cons, List.not_mem_nil, or_false] at hT
  rcases hT with rfl | rfl | rfl | rfl <;>
    cases hI : avail ImageConverter <;>
      simp [getConverterChain, CONVERTERS, CONVERTERS_ALL, hI, hDoc, hP,
        bfsAux, scanConvs, convertersForType, buildPipelineAux, List.lookup, hA, hG,
        img_types, img_out, doc_types, doc_out, pdf_types, pdf_out]

lemma getChain_doc_dead (avail : ConvClass → Bool) (T : String) (S : List String)
    (hDoc : avail DocConverter = true) (hP : avail PDFConverter = true)
    (hT : T ∈ DocConverter.supported_types)
    (hA : "application/pdf" ∉ S) (hG : "gutenberg/pdf" ∉ S) :
    getConverterChain (CONVERTERS avail) T S = .error (.noConverterAvailableError T S) := by
  simp only [doc_types, List.mem_cons, List.not_mem_nil, or_false] at hT
  rcases hT with rfl | rfl | rfl | rfl <;>
    cases hI : avail ImageConverter <;>
      simp [getConverterChain, CONVERTERS, CONVERTERS_ALL, hI, hDoc, hP,
        bfsAux, scanConvs, convertersForType, buildPipelineAux, List.lookup, hA, hG,
        img_types, img_out, doc_types, doc_out, pdf_types, pdf_out]

lemma getChain_doc_noPdf (avail : ConvClass → Bool) (T : String) (S : List String)
    (hDoc : avail DocConverter = true) (hP : avail PDFConverter = false)
    (hT : T ∈ DocConverter.supported_types)
    (hA : "application/pdf" ∉ S) :
    getConverterChain (CONVERTERS avail) T S = .error (.noConverterAvailableError T S) := by
  simp only [doc_types, List.mem_cons, List.not_mem_nil, or_false] at hT
  rcases hT with rfl | rfl | rfl | rfl <;>
    cases hI : avail ImageConverter <;>
      simp [getConverterChain, CONVERTERS, CONVERTERS_ALL, hI, hDoc, hP,
        bfsAux, scanConvs, convertersForType, buildPipelineAux, List.lookup, hA,
        img_types, img_out, doc_types, doc_out, pdf_types, pdf_out]

lemma convertersForType_doc_unavail (avail : ConvClass → Bool) (T : String)
    (hDoc : avail DocConverter = false) (hT : T ∈ DocConverter.supported_types) :
    convertersForType (CONVERTERS avail) T = [] := by
  simp only [doc_types, List.mem_cons, List.not_mem_nil, or_false] at hT
  rcases hT with rfl | rfl | rfl | rfl <;>
    cases hI : avail ImageConverter <;> cases hP : avail PDFConverter <;>
      simp [convertersForType, CONVERTERS, CONVERTERS_ALL, hI, hDoc, hP,
        img_types, doc_types, pdf_types]

lemma getChain_pdf_found (avail : ConvClass → Bool) (S : List String)
    (hP : avail PDFConverter = true) (hG : "gutenberg/pdf" ∈ S) :
    getConverterChain (CONVERTERS avail) "application/pdf" S = .ok [PDFConverter] := by
  cases hI : avail ImageConverter <;> cases hD : avail DocConverter <;>
    simp [getConverterChain, CONVERTERS, CONVERTERS_ALL, hI, hD, hP,
      bfsAux, scanConvs, convertersForType, buildPipelineAux, List.lookup, hG,
      img_types, img_out, doc_types, doc_out, pdf_types, pdf_out]

lemma getChain_pdf_dead (avail : ConvClass → Bool) (S : List String)
    (hP : avail PDFConverter = true) (hG : "gutenberg/pdf" ∉ S) :
    getConverterChain (CONVERTERS avail) "application/pdf" S =
      .error (.noConverterAvailableError "application/pdf" S) := by
  cases hI : avail ImageConverter <;> cases hD : avail DocConverter <;>
    simp [getConverterChain, CONVERTERS, CONVERTERS_ALL, hI, hD, hP,
      bfsAux, scanConvs, convertersForType, buildPipelineAux, List.lookup, hG,
      img_types, img_out, doc_types, doc_out, pdf_types, pdf_out]

lemma convertersForType_pdf_unavail (avail : ConvClass → Bool)
    (hP : avail PDFConverter = false) :
    convertersForType (CONVERTERS avail) "application/pdf" = [] := by
  cases hI : avail ImageConverter <;> cases hD : avail DocConverter <;>
    simp [convertersForType, CONVERTERS, CONVERTERS_ALL, hI, hD, hP,
      img_types, doc_types, pdf_types]

/-! ### Full characterisation of the resolver -/

lemma chainOk_single (avail : ConvClass → Bool) (S : List String) (T : String)
    (c : ConvClass) (hc : c ∈ CONVERTERS_ALL) (hav : avail c = true)
    (hT : T ∈ c.supported_types) (hS : c.output_type ∈ S) :
    chainOk (CONVERTERS avail) S T [c] = true :=
  (chainOk_cons_iff avail S T c []).mpr
    ⟨⟨hc, hav⟩, hT, by simpa [chainOk_nil, List.contains, List.elem_iff] using hS⟩

lemma chainOk_pair (avail : ConvClass → Bool) (S : List String) (T : String)
    (c d : ConvClass) (hc : c ∈ CONVERTERS_ALL) (havc : avail c = true)
    (hT : T ∈ c.supported_types) (hd : d ∈ CONVERTERS_ALL) (havd : avail d = true)
    (hlink : c.output_type ∈ d.supported_types) (hS : d.output_type ∈ S) :
    chainOk (CONVERTERS avail) S T [c, d] = true :=
  (chainOk_cons_iff avail S T c [d]).mpr
    ⟨⟨hc, havc⟩, hT, chainOk_single avail S _ d hd havd hlink hS⟩

lemma one_le_length_of_ne_nil {q : List ConvClass} (hq : q ≠ []) : 1 ≤ q.length := by
  cases q with
  | nil => exact absurd rfl hq
  | cons _ _ => simp [List.length_cons, Nat.succ_le_succ, Nat.zero_le]

/-- Complete case analysis of `get_converter_chain` over the registry of the
source: either it fails with `NoConverterAvailableError` carrying the input
type and the accepted set, and then no non-empty valid chain exists at all, or
it returns a non-empty valid pipeline of minimal length among all non-empty
valid chains. -/
lemma getChain_spec (avail : ConvClass → Bool) (T : String) (S : List String) :
    (getConverterChain (CONVERTERS avail) T S =
        .error (.noConverterAvailableError T S) ∧
      ∀ q, chainOk (CONVERTERS avail) S T q = true → q = []) ∨
    (∃ p, getConverterChain (CONVERTERS avail) T S = .ok p ∧ p ≠ [] ∧
      chainOk (CONVERTERS avail) S T p = true ∧
      ∀ q, q ≠ [] → chainOk (CONVERTERS avail) S T q = true →
        p.length ≤ q.length) := by
  by_cases hImgT : T = "image/png" ∨ T = "image/jpeg"
  · cases hI : avail ImageConverter
    · left
      refine ⟨getChain_no_edges _ _ _ (convertersForType_img_unavail avail T hI hImgT), ?_⟩
      intro q hq
      rcases chain_from_img avail S T hImgT q hq with ⟨rfl, _⟩ | ⟨_, hI', _⟩ | ⟨_, hI', _⟩
      · rfl
      · rw [hI] at hI'; cases hI'
      · rw [hI] at hI'; cases hI'
    · by_cases hA : "application/pdf" ∈ S
      · right
        refine ⟨[ImageConverter], getChain_img_found avail T S hI hImgT hA, by simp, ?_, ?_⟩
        · refine chainOk_single avail S T ImageConverter (by simp [CONVERTERS_ALL]) hI ?_ hA
          rcases hImgT with rfl | rfl <;> simp [img_types]
        · intro q hq _
          simpa using one_le_length_of_ne_nil hq
      · cases hP : avail PDFConverter
        · left
          refine ⟨getChain_img_noPdf avail T S hI hP hImgT hA, ?_⟩
          intro q hq
          rcases chain_from_img avail S T hImgT q hq with ⟨rfl, _⟩ | ⟨_, _, hA'⟩ | ⟨_, _, hP', _⟩
          · rfl
          · exact absurd hA' hA
          · rw [hP] at hP'; cases hP'
        · by_cases hG : "gutenberg/pdf" ∈ S
          · right
            refine ⟨[ImageConverter, PDFConverter],
              getChain_img_two avail T S hI hP hImgT hA hG, by simp, ?_, ?_⟩
            · refine chainOk_pair avail S T ImageConverter PDFConverter
                (by simp [CONVERTERS_ALL]) hI ?_ (by simp [CONVERTERS_ALL]) hP
                (by simp [img_out, pdf_types]) (by simpa [pdf_out] using hG)
              rcases hImgT with rfl | rfl <;> simp [img_types]
            · intro q hq hqOk
              rcases chain_from_img avail S T hImgT q hqOk with
                ⟨rfl, _⟩ | ⟨_, _, hA'⟩ | ⟨rfl, _⟩
              · exact absurd rfl hq
              · exact absurd hA' hA
              · simp
          · left
            refine ⟨getChain_img_dead avail T S hI hP hImgT hA hG, ?_⟩
            intro q hq
            rcases chain_from_img avail S T hImgT q hq with
              ⟨rfl, _⟩ | ⟨_, _, hA'⟩ | ⟨_, _, _, hG'⟩
            · rfl
            · exact absurd hA' hA
            · exact absurd hG' hG
  · by_cases hDocT : T ∈ DocConverter.supported_types
    · cases hDoc : avail DocConverter
      · left
        refine ⟨getChain_no_edges _ _ _ (convertersForType_doc_unavail avail T hDoc hDocT), ?_⟩
        intro q hq
        rcases chain_from_doc avail S T hDocT q hq with ⟨rfl, _⟩ | ⟨_, hD', _⟩ | ⟨_, hD', _⟩
        · rfl
        · rw [hDoc] at hD'; cases hD'
        · rw [hDoc] at hD'; cases hD'
      · by_cases hA : "application/pdf" ∈ S
        · right
          refine ⟨[DocConverter], getChain_doc_found avail T S hDoc hDocT hA, by simp, ?_, ?_⟩
          · exact chainOk_single avail S T DocConverter (by simp [CONVERTERS_ALL]) hDoc hDocT hA
          · intro q hq _
            simpa using one_le_length_of_ne_nil hq
        · cases hP : avail PDFConverter
          · left
            refine ⟨getChain_doc_noPdf avail T S hDoc hP hDocT hA, ?_⟩
            intro q hq
            rcases chain_from_doc avail S T hDocT q hq with ⟨rfl, _⟩ | ⟨_, _, hA'⟩ | ⟨_, _, hP', _⟩
            · rfl
            · exact absurd hA' hA
            · rw [hP] at hP'; cases hP'
          · by_cases hG : "gutenberg/pdf" ∈ S
            · right
              refine ⟨[DocConverter, PDFConverter],
                getChain_doc_two avail T S hDoc hP hDocT hA hG, by simp, ?_, ?_⟩
              · exact chainOk_pair avail S T DocConverter PDFConverter
                  (by simp [CONVERTERS_ALL]) hDoc hDocT (by simp [CONVERTERS_ALL]) hP
                  (by simp [doc_out, pdf_types]) (by simpa [pdf_out] using hG)
              · intro q hq hqOk
                rcases chain_from_doc avail S T hDocT q hqOk with
                  ⟨rfl, _⟩ | ⟨_, _, hA'⟩ | ⟨rfl, _⟩
                · exact absurd rfl hq
                · exact absurd hA' hA
                · simp
            · left
              refine ⟨getChain_doc_dead avail T S hDoc hP hDocT hA hG, ?_⟩
              intro q hq
              rcases chain_from_doc avail S T hDocT q hq with
                ⟨rfl, _⟩ | ⟨_, _, hA'⟩ | ⟨_, _, _, hG'⟩
              · rfl
              · exact absurd hA' hA
              · exact absurd hG' hG
    · by_cases hPdfT : T = "application/pdf"
      · subst hPdfT
        cases hP : avail PDFConverter
        · left
          refine ⟨getChain_no_edges _ _ _ (convertersForType_pdf_unavail avail hP), ?_⟩
          intro q hq
          rcases chain_from_app avail S q hq with ⟨rfl, _⟩ | ⟨_, hP', _⟩
          · rfl
          · rw [hP] at hP'; cases hP'
        · by_cases hG : "gutenberg/pdf" ∈ S
          · right
            refine ⟨[PDFConverter], getChain_pdf_found avail S hP hG, by simp, ?_, ?_⟩
            · exact chainOk_single avail S _ PDFConverter (by simp [CONVERTERS_ALL]) hP
                (by simp [pdf_types]) (by simpa [pdf_out] using hG)
            · intro q hq _
              simpa using one_le_length_of_ne_nil hq
          · left
            refine ⟨getChain_pdf_dead avail S hP hG, ?_⟩
            intro q hq
            rcases chain_from_app avail S q hq with ⟨rfl, _⟩ | ⟨_, _, hG'⟩
            · rfl
            · exact absurd hG' hG
      · left
        have hT : ∀ c ∈ CONVERTERS_ALL, T ∉ c.supported_types := by
          intro c hc
          simp only [CONVERTERS_ALL, List.mem_cons, List.not_mem_nil, or_false] at hc
          rcases hc with rfl | rfl | rfl
          · simpa [img_types] using hImgT
          · exact hDocT
          · simpa [pdf_types] using hPdfT
        refine ⟨getChain_no_edges _ _ _ (convertersForType_nil avail T hT), ?_⟩
        intro q hq
        exact (chain_from_none avail S T hT q hq).1

lemma getChain_sound (avail : ConvClass → Bool) (T : String) (S : List String)
    (p : List ConvClass) (hp : getConverterChain (CONVERTERS avail) T S = .ok p) :
    chainOk (CONVERTERS avail) S T p = true := by
  rcases getChain_spec avail T S with ⟨herr, _⟩ | ⟨p', hok, _, hOk, _⟩
  · rw [herr] at hp; cases hp
  · rw [hok] at hp
    injection hp with h
    exact h ▸ hOk

lemma getChain_ne_nil (avail : ConvClass → Bool) (T : String) (S : List String)
    (p : List ConvClass) (hp : getConverterChain (CONVERTERS avail) T S = .ok p) :
    p ≠ [] := by
  rcases getChain_spec avail T S with ⟨herr, _⟩ | ⟨p', hok, hne, _, _⟩
  · rw [herr] at hp; cases hp
  · rw [hok] at hp
    injection hp with h
    exact h ▸ hne

lemma getChain_min (avail : ConvClass → Bool) (T : String) (S : List String)
    (p : List ConvClass) (hp : getConverterChain (CONVERTERS avail) T S = .ok p)
    (q : List ConvClass) (hq : q ≠ [])
    (hqOk : chainOk (CONVERTERS avail) S T q = true) : p.length ≤ q.length := by
  rcases getChain_spec avail T S with ⟨herr, _⟩ | ⟨p', hok, _, _, hmin⟩
  · rw [herr] at hp; cases hp
  · rw [hok] at hp
    injection hp with h
    exact h ▸ hmin q hq hqOk

lemma getChain_err (avail : ConvClass → Bool) (T : String) (S : List String)
    (h : ∀ q, chainOk (CONVERTERS avail) S T q = true → q = []) :
    getConverterChain (CONVERTERS avail) T S =
      .error (.noConverterAvailableError T S) := by
  rcases getChain_spec avail T S with ⟨herr, _⟩ | ⟨p, hok, hne, hOk, _⟩
  · exact herr
  · exact absurd (h p hOk) hne

lemma contains_eq_false_of_not_mem {S : List String} {t : String} (h : t ∉ S) :
    S.contains t = false := by
  simp [List.contains, List.elem_iff, h]

/-! ### Claim theorems -/

/-- Claim C1 (code bug): when the detected content-type of the input file is
already in the accepted output set, `auto_convert` invokes zero converters,
but it returns the detected content-type string — `return input_type` — not
the input file's path as the specification requires.  Concretely: input file
"in.pdf" detected as "application/pdf", accepted set {"application/pdf"}:
zero stages run and the result is "application/pdf", which is not "in.pdf". -/
theorem auto_convert_short_circuit_returns_detected_type :
    autoConvertRun (CONVERTERS (fun _ => true)) (fun _ => "application/pdf")
        (fun _ _ f => f) "in.pdf" (.many ["application/pdf"]) "/work" =
      ([], .ok "application/pdf") ∧
    ("application/pdf" : String) ≠ "in.pdf" :=
  ⟨rfl, by decide⟩

/-- Claim C2, counterexample: it is not true that every returned pipeline is
minimal against all valid chains — the spec's own Pipeline model admits the
empty chain as valid when the input type is already acceptable, and calling
`get_converter_chain` with `"application/pdf"` accepted yields the one-stage
pipeline `[PDFConverter]` although the empty chain already reaches an
acceptable type. -/
theorem get_converter_chain_not_minimal_against_empty_chain :
    ¬ (∀ (avail : ConvClass → Bool) (T : String) (S : List String)
        (p : List ConvClass),
        getConverterChain (CONVERTERS avail) T S = .ok p →
        ∀ q, chainOk (CONVERTERS avail) S T q = true → p.length ≤ q.length) := by
  intro h
  have h1 := h (fun _ => true) "application/pdf" ["application/pdf", "gutenberg/pdf"]
    [PDFConverter] rfl [] rfl
  simp at h1

/-- Claim C2 (amended): every pipeline returned by `get_converter_chain` is
minimal in stage count among the non-empty valid chains of available
converters from the input type into the accepted set. -/
theorem get_converter_chain_minimal_among_nonempty (avail : ConvClass → Bool)
    (T : String) (S : List String) (p : List ConvClass)
    (hp : getConverterChain (CONVERTERS avail) T S = .ok p)
    (q : List ConvClass) (hq : q ≠ [])
    (hqOk : chainOk (CONVERTERS avail) S T q = true) :
    p.length ≤ q.length :=
  getChain_min avail T S p hp q hq hqOk

/-- Witness for the amended C2 at a concrete input. -/
theorem get_converter_chain_minimal_among_nonempty_witness :
    ([ImageConverter, PDFConverter] : List ConvClass).length ≤
      ([ImageConverter, PDFConverter] : List ConvClass).length :=
  get_converter_chain_minimal_among_nonempty (fun _ => true) "image/jpeg"
    ["gutenberg/pdf"] [ImageConverter, PDFConverter] rfl
    [ImageConverter, PDFConverter] (by decide) (by decide)

/-- Claim C3: when no non-empty chain of available converters transforms the
input type into a member of the accepted set, `get_converter_chain` fails
with `NoConverterAvailableError` carrying the attempted input type and the
full requested output set. -/
theorem get_converter_chain_error_when_no_chain (avail : ConvClass → Bool)
    (T : String) (S : List String)
    (h : ∀ q, chainOk (CONVERTERS avail) S T q = true → q = []) :
    getConverterChain (CONVERTERS avail) T S =
      .error (.noConverterAvailableError T S) :=
  getChain_err avail T S h

/-- Witness for C3: no converter accepts "text/unknown". -/
theorem get_converter_chain_error_when_no_chain_witness :
    getConverterChain (CONVERTERS (fun _ => true)) "text/unknown"
        ["application/pdf"] =
      .error (.noConverterAvailableError "text/unknown" ["application/pdf"]) :=
  get_converter_chain_error_when_no_chain (fun _ => true) "text/unknown"
    ["application/pdf"]
    (fun q hq =>
      (chain_from_none (fun _ => true) ["application/pdf"] "text/unknown"
        (by decide) q hq).1)

/-- Claim C4: every returned pipeline is a valid chain: the first stage
accepts the input type, each consecutive stage accepts its predecessor's
output type, every stage is in the registry, and the last stage's output
type is a member of the accepted set. -/
theorem get_converter_chain_returns_valid_chain (avail : ConvClass → Bool)
    (T : String) (S : List String) (p : List ConvClass)
    (hp : getConverterChain (CONVERTERS avail) T S = .ok p) :
    chainOk (CONVERTERS avail) S T p = true ∧
    ∀ hne : p ≠ [], (p.getLast hne).output_type ∈ S :=
  ⟨getChain_sound avail T S p hp,
    chainOk_last (CONVERTERS avail) S p T (getChain_sound avail T S p hp)⟩

/-- Witness for C4 at a concrete input. -/
theorem get_converter_chain_returns_valid_chain_witness :
    chainOk (CONVERTERS (fun _ => true)) ["application/pdf"] "image/jpeg"
        [ImageConverter] = true ∧
    ∀ hne : ([ImageConverter] : List ConvClass) ≠ [],
      (([ImageConverter] : List ConvClass).getLast hne).output_type ∈
        ["application/pdf"] :=
  get_converter_chain_returns_valid_chain (fun _ => true) "image/jpeg"
    ["application/pdf"] [ImageConverter] rfl

/-- Claim C5: when `auto_convert` does not short-circuit and resolution
succeeds, it executes the resolved converters in pipeline order, feeding each
stage's returned output file path as the next stage's input, and returns the
final stage's output file path; the last stage's declared output type is a
member of the accepted set. -/
theorem auto_convert_executes_resolved_pipeline (avail : ConvClass → Bool)
    (detect : String → String) (runConv : ConvClass → String → String → String)
    (inputFile : String) (S : List String) (workDir : String)
    (p : List ConvClass)
    (hS : detect inputFile ∉ S)
    (hp : getConverterChain (CONVERTERS avail) (detect inputFile) S = .ok p) :
    autoConvertRun (CONVERTERS avail) detect runConv inputFile (.many S) workDir =
      (p, .ok (p.foldl (fun file conv => runConv conv workDir file) inputFile)) ∧
    ∀ hne : p ≠ [], (p.getLast hne).output_type ∈ S := by
  have hc : S.contains (detect inputFile) = false := contains_eq_false_of_not_mem hS
  refine ⟨?_, chainOk_last (CONVERTERS avail) S p (detect inputFile)
    (getChain_sound avail (detect inputFile) S p hp)⟩
  simp [autoConvertRun, hc, hp, hS]

/-- Witness for C5 at a concrete input. -/
theorem auto_convert_executes_resolved_pipeline_witness :
    autoConvertRun (CONVERTERS (fun _ => true)) (fun _ => "image/jpeg")
        (fun _ _ _ => "out.pdf") "in.jpg" (.many ["application/pdf"]) "/w" =
      ([ImageConverter], .ok "out.pdf") :=
  (auto_convert_executes_resolved_pipeline (fun _ => true) (fun _ => "image/jpeg")
    (fun _ _ _ => "out.pdf") "in.jpg" ["application/pdf"] "/w" [ImageConverter]
    (by decide) rfl).1

/-- Claim C6: when resolution fails, `auto_convert` propagates the
`NoConverterAvailableError` unchanged and executes zero converter stages. -/
theorem auto_convert_propagates_resolver_error (avail : ConvClass → Bool)
    (detect : String → String) (runConv : ConvClass → String → String → String)
    (inputFile : String) (S : List String) (workDir : String) (e : ConvError)
    (hS : detect inputFile ∉ S)
    (he : getConverterChain (CONVERTERS avail) (detect inputFile) S = .error e) :
    autoConvertRun (CONVERTERS avail) detect runConv inputFile (.many S) workDir =
      ([], .error e) := by
  have hc : S.contains (detect inputFile) = false := contains_eq_false_of_not_mem hS
  simp [autoConvertRun, hc, he, hS]

/-- Witness for C6 at a concrete input. -/
theorem auto_convert_propagates_resolver_error_witness :
    autoConvertRun (CONVERTERS (fun _ => true)) (fun _ => "text/unknown")
        (fun _ _ _ => "x") "in.bin" (.many ["application/pdf"]) "/w" =
      ([], .error (.noConverterAvailableError "text/unknown" ["application/pdf"])) :=
  auto_convert_propagates_resolver_error (fun _ => true) (fun _ => "text/unknown")
    (fun _ _ _ => "x") "in.bin" ["application/pdf"] "/w"
    (.noConverterAvailableError "text/unknown" ["application/pdf"])
    (by decide) rfl

/-- Claim C7: a converter whose availability probe is false is excluded from
the registry `CONVERTERS`, and consequently no pipeline ever returned by
`get_converter_chain` contains it. -/
theorem unavailable_converter_never_in_pipeline (avail : ConvClass → Bool)
    (c : ConvClass) (h : avail c = false) :
    c ∉ CONVERTERS avail ∧
    ∀ (T : String) (S : List String) (p : List ConvClass),
      getConverterChain (CONVERTERS avail) T S = .ok p → c ∉ p := by
  constructor
  · intro hc
    simp only [CONVERTERS] at hc
    have h2 := (List.mem_filter.mp hc).2
    rw [h] at h2
    cases h2
  · intro T S p hp hcp
    have hsub := chainOk_mem (CONVERTERS avail) S p T
      (getChain_sound avail T S p hp) c hcp
    simp only [CONVERTERS] at hsub
    have h2 := (List.mem_filter.mp hsub).2
    rw [h] at h2
    cases h2

/-- Witness for C7: the PDF normalizer probe fails. -/
theorem unavailable_converter_never_in_pipeline_witness :
    PDFConverter ∉ CONVERTERS (fun c => !(c == PDFConverter)) ∧
    ∀ (T : String) (S : List String) (p : List ConvClass),
      getConverterChain (CONVERTERS (fun c => !(c == PDFConverter))) T S = .ok p →
        PDFConverter ∉ p :=
  unavailable_converter_never_in_pipeline (fun c => !(c == PDFConverter))
    PDFConverter (by decide)

/-- Claim C8: with the image-to-PDF converter and the PDF normalizer
available, resolving "image/jpeg" against {"application/pdf"} returns exactly
the single-stage pipeline [ImageConverter]; the two-stage pipeline ending in
the normalizer is returned only when the normalizer's output type
"gutenberg/pdf" is a member of the accepted set. -/
theorem image_jpeg_to_pdf_scenario :
    getConverterChain (CONVERTERS (fun c => c == ImageConverter || c == PDFConverter))
        "image/jpeg" ["application/pdf"] = .ok [ImageConverter] ∧
    ∀ S : List String,
      getConverterChain (CONVERTERS (fun c => c == ImageConverter || c == PDFConverter))
          "image/jpeg" S = .ok [ImageConverter, PDFConverter] →
        "gutenberg/pdf" ∈ S := by
  refine ⟨rfl, ?_⟩
  intro S h
  by_cases hA : "application/pdf" ∈ S
  · have hf := getChain_img_found (fun c => c == ImageConverter || c == PDFConverter)
      "image/jpeg" S (by decide) (Or.inr rfl) hA
    rw [hf] at h
    injection h with h'
    exact absurd h' (by decide)
  · by_cases hG : "gutenberg/pdf" ∈ S
    · exact hG
    · have hd := getChain_img_dead (fun c => c == ImageConverter || c == PDFConverter)
        "image/jpeg" S (by decide) (by decide) (Or.inr rfl) hA hG
      rw [hd] at h
      cases h

/-- Witness for C8's conditional part at a concrete accepted set. -/
theorem image_jpeg_to_pdf_scenario_witness :
    ("gutenberg/pdf" : String) ∈ ["gutenberg/pdf"] :=
  image_jpeg_to_pdf_scenario.2 ["gutenberg/pdf"] rfl

/-- Claim C9: called directly with an input type that is already in the
accepted set, `get_converter_chain` never returns the empty pipeline — with
this registry the traversal's predecessor map never reaches the start type —
and unless some chain of available converters reaches an accepted type, it
raises `NoConverterAvailableError`. -/
theorem get_converter_chain_never_returns_empty_pipeline (avail : ConvClass → Bool)
    (T : String) (S : List String) (_hTS : T ∈ S) :
    getConverterChain (CONVERTERS avail) T S ≠ .ok ([] : List ConvClass) ∧
    ((∀ q, chainOk (CONVERTERS avail) S T q = true → q = []) →
      getConverterChain (CONVERTERS avail) T S =
        .error (.noConverterAvailableError T S)) :=
  ⟨fun h => getChain_ne_nil avail T S [] h rfl, getChain_err avail T S⟩

/-- Witness for C9: input "application/pdf" already acceptable. -/
theorem get_converter_chain_never_returns_empty_pipeline_witness :
    getConverterChain (CONVERTERS (fun _ => true)) "application/pdf"
        ["application/pdf"] ≠ .ok ([] : List ConvClass) ∧
    ((∀ q, chainOk (CONVERTERS (fun _ => true)) ["application/pdf"]
        "application/pdf" q = true → q = []) →
      getConverterChain (CONVERTERS (fun _ => true)) "application/pdf"
          ["application/pdf"] =
        .error (.noConverterAvailableError "application/pdf" ["application/pdf"])) :=
  get_converter_chain_never_returns_empty_pipeline (fun _ => true)
    "application/pdf" ["application/pdf"] (by decide)

/-- Claim C10: `auto_convert` accepts its `out_types` argument either as a
single content-type string or as a list; a single string behaves exactly as
the singleton list containing it, for every registry, detector, converter
behaviour, input file and working directory. -/
theorem auto_convert_string_equals_singleton_list (converters : List ConvClass)
    (detect : String → String) (runConv : ConvClass → String → String → String)
    (inputFile : String) (s : String) (workDir : String) :
    autoConvertRun converters detect runConv inputFile (.single s) workDir =
      autoConvertRun converters detect runConv inputFile (.many [s]) workDir :=
  rfl
